import Mathlib

/-!
Verification development for the test-runtime core
(packages/jest-runtime/src/index.js).

The runtime is embedded shallowly:

* JavaScript objects live in an explicit heap `List (Nat × List (String × Value))`
  addressed by allocation order (`nextAddr`); reference identity is address
  identity.
* The instance fields of the `Runtime` class become the record `RTState`;
  plain JS objects used as string-keyed maps become association lists whose
  insertion (`setA`) prepends, so the most recent write shadows older ones,
  exactly like property assignment.
* External collaborators (resolver, transformer, sandbox, fake timers,
  filesystem, JSON parser, host `require`) are parameters collected in `Env`;
  they are pure and constant during a run, which is the contract the source
  assumes of them.
* Exceptions are `Except RErr` threaded next to the state: a raising call
  returns `(st, .error e)` where `st` is the state at the moment of the
  throw, since a JS exception does not roll back mutations.
* The mutually re-entrant operations (`requireModule`, `requireMock`,
  `requireModuleOrMock`, `_execModule`, `_generateMock`, and evaluation of a
  module body, which may call `require` again) are a single fuel-indexed
  interpreter `runCall`, structurally recursive on the fuel.
* Module bodies (the result of transforming a file) are given by
  `Env.bodies : String → List Stmt`, a tiny statement language sufficient to
  mutate `exports` and to re-enter `require`; a failing transform, a failing
  sandbox evaluation and a throwing wrapper are modelled by `Env.transformOk`,
  `Env.runScriptOk` and the `Stmt.throwErr` statement.

Fields of the source records that have no observable behaviour in the core
(`children`, `parent`, `paths`, the `require` capability stored on a module
record, and the opaque coverage-collector instances) are not carried in the
state; the collector table is kept as the set of filenames that own a
collector, which is all the control flow of `_execModule` reads.
-/

/-! ## Path helpers (posix models of the node `path` functions used)

They are written by structural recursion over the character list of the
string so that every concrete path computation reduces definitionally. -/

def pathDelimiter : String := ":"

def nodeModulesSeg : String := "/node_modules/"

/-- Split a character list at every occurrence of the separator. -/
def splitChar (c : Char) : List Char → List (List Char)
  | [] => [[]]
  | x :: xs =>
    let r := splitChar c xs
    if x = c then [] :: r
    else
      match r with
      | [] => [[x]]
      | h :: t => (x :: h) :: t

def strSplit (p : String) (c : Char) : List String :=
  (splitChar c p.data).map (fun l => ⟨l⟩)

def isPrefixList : List Char → List Char → Bool
  | [], _ => true
  | _ :: _, [] => false
  | a :: as, b :: bs => a = b && isPrefixList as bs

def containsList (needle : List Char) : List Char → Bool
  | [] => needle.isEmpty
  | x :: xs => isPrefixList needle (x :: xs) || containsList needle xs

/-- Model of the JS String.prototype.includes test used with the
node-modules segment. -/
def containsSub (s sub : String) : Bool :=
  containsList sub.data s.data

def strStartsWith (s pre : String) : Bool :=
  isPrefixList pre.data s.data

def joinWith (sep : String) : List String → String
  | [] => ""
  | [x] => x
  | x :: xs => x ++ sep ++ joinWith sep xs

def dirname (p : String) : String :=
  if !(containsList ['/'] p.data) then "."
  else
    let comps := strSplit p '/'
    let d := joinWith "/" comps.dropLast
    if d = "" then (if strStartsWith p "/" then "/" else ".") else d

def basenameStr (p : String) : String :=
  ((strSplit p '/').getLast?).getD p

def extname (p : String) : String :=
  let base := basenameStr p
  let parts := strSplit base '.'
  match parts with
  | [] => ""
  | [_] => ""
  | ["", _] => ""
  | _ => "." ++ ((parts.getLast?).getD "")

def normSegs : List String → List String → List String
  | acc, [] => acc.reverse
  | acc, s :: rest =>
    if s = "" ∨ s = "." then normSegs acc rest
    else if s = ".." then
      match acc with
      | [] => normSegs [".."] rest
      | ".." :: _ => normSegs (s :: acc) rest
      | _ :: tl => normSegs tl rest
    else normSegs (s :: acc) rest

def pathNormalize (p : String) : String :=
  let core := joinWith "/" (normSegs [] (strSplit p '/'))
  if strStartsWith p "/" then "/" ++ core
  else if core = "" then "." else core

/-! ## Values, heap objects and errors -/

inductive Value where
  | undefined
  | nullV
  | boolV (b : Bool)
  | numV (n : Int)
  | strV (s : String)
  | obj (addr : Nat)
deriving Repr, DecidableEq

def truthy : Value → Bool
  | .undefined => false
  | .nullV => false
  | .boolV b => b
  | .numV n => n != 0
  | .strV s => s != ""
  | .obj _ => true

inductive RErr where
  | resolutionFailure
  | outOfFuel
  | typeError
  | transformError
  | scriptError
  | userThrow
  | mockMetadataFailure
deriving Repr, DecidableEq

/-- Metadata produced by the external mock-metadata library: a serialisable
snapshot of a live exports value (contract of moduleMocker.getMetadata). -/
inductive Metadata where
  | objMeta (fields : List (String × Value))
  | primMeta (v : Value)
deriving Repr, DecidableEq

/-- The metadata of an empty object, moduleMocker.getMetadata of an empty bag;
used by generateMock to seed the cache against cycles. -/
def emptyMeta : Metadata := .objMeta []

/-- A user-supplied zero-argument mock factory. `constV` returns a fixed
value, `freshObj` allocates and returns a new object on every invocation,
`effectThen` performs an observable allocation side effect and then returns a
fixed (possibly falsy) value. -/
inductive MockFactory where
  | constV (v : Value)
  | freshObj (fields : List (String × Value))
  | effectThen (v : Value)
deriving Repr, DecidableEq

/-- A statement of a transformed module body. The body runs with `exports`
bound to the record's exports object and `require` bound to the per-file
require implementation, which dispatches through requireModuleOrMock. -/
inductive Stmt where
  | setExport (k : String) (v : Value)
  | requireDiscard (spec : String)
  | requireField (spec : String) (src : String) (k : String)
  | throwErr
deriving Repr, DecidableEq

structure ModuleRec where
  filename : String
  exports : Value
deriving Repr, DecidableEq

/-- A value found as an own property of the sandbox global: whether it is an
object or function, whether it carries the mock-function marker, and its
recorded-call count (what mockClear resets). -/
structure GVal where
  isObjOrFn : Bool
  isMockFunction : Bool
  calls : Nat
deriving Repr, DecidableEq

structure EnvGlobalState where
  vals : List (String × GVal)
  hasMockClearTimers : Bool
  timersCleared : Bool
deriving Repr, DecidableEq

/-! ## Runtime state (the mutable instance fields of the Runtime class) -/

structure RTState where
  moduleRegistry : List (String × ModuleRec)
  mockRegistry : List (String × Value)
  mockFactories : List (String × MockFactory)
  explicitShouldMock : List (String × Bool)
  virtualMocks : List (String × Bool)
  mockMetaDataCache : List (String × Metadata)
  shouldMockModuleCache : List (String × Bool)
  shouldUnmockTransitiveDependenciesCache : List (String × Bool)
  transitiveShouldMock : List (String × Bool)
  normalizedIDCache : List (String × String)
  shouldAutoMock : Bool
  currentlyExecutingModulePath : String
  isCurrentlyExecutingManualMock : Option String
  coverageCollectors : List String
  envGlobal : Option EnvGlobalState
  heap : List (Nat × List (String × Value))
  nextAddr : Nat
deriving Repr, DecidableEq

/-! ## External collaborators -/

structure Resolver where
  getModule : String → Option String
  getMockModule : String → Option String
  isCoreModule : String → Bool
  resolveModule : String → String → Option String

/-- Return values of the fake-timer subsystem's methods (their effects happen
inside the sandbox environment and are opaque to the runtime; only the
returned values are observable through the facade). -/
structure FakeTimers where
  useFakeTimersRet : Value
  useRealTimersRet : Value
  clearAllTimersRet : Value
  runAllTicksRet : Value
  runAllImmediatesRet : Value
  runAllTimersRet : Value
  runOnlyPendingTimersRet : Value

structure Env where
  resolver : Resolver
  collectCoverage : Bool
  collectCoverageOnlyFrom : Option (String → Bool)
  coverageRegex : String → Bool
  mocksPattern : Option (String → Bool)
  testRegex : String → Bool
  unmockList : Option (String → Bool)
  fsExists : String → Bool
  bodies : String → List Stmt
  transformOk : String → Bool
  runScriptOk : String → Bool
  hasCoverageCollectorClass : Bool
  nativeRequire : String → Value
  jsonParse : String → List (String × Value)
  fakeTimers : FakeTimers

/-! ## Association-list and heap primitives -/

/-- Property assignment on a JS object used as a map: the newest write
shadows any older one. -/
def setA {α : Type} (l : List (String × α)) (k : String) (v : α) :
    List (String × α) :=
  (k, v) :: l

def heapGetObj (st : RTState) (a : Nat) : List (String × Value) :=
  (st.heap.lookup a).getD []

def heapSetField (st : RTState) (a : Nat) (k : String) (v : Value) : RTState :=
  {st with heap := (a, setA (heapGetObj st a) k v) :: st.heap}

def allocObj (st : RTState) (fields : List (String × Value)) : RTState × Nat :=
  ({st with heap := (st.nextAddr, fields) :: st.heap,
            nextAddr := st.nextAddr + 1},
   st.nextAddr)

/-! ## Small runtime helpers -/

/-- A JS optional-string parameter collapsed by truthiness: an absent
argument and the empty string behave alike. -/
def optName : Option String → Option String
  | some s => if s = "" then none else some s
  | none => none

/-- Model of the private resolveModule helper: a falsy specifier resolves to
the requesting file itself, otherwise the resolver is consulted; `none`
models the resolver throwing. -/
def resolveModuleOptStr (env : Env) (frm s : String) : Option String :=
  if s = "" then some frm else env.resolver.resolveModule frm s

/-- Virtual-mock path computation: bare names pass through unchanged,
relative and absolute specifiers are normalised against the requesting
file's directory. -/
def getVirtualMockPath (frm name : String) : String :=
  if !(strStartsWith name ".") && !(strStartsWith name "/") then name
  else pathNormalize (dirname frm ++ "/" ++ name)

/-- Key of the process-wide normalized-id memo table. -/
def nKey (frm : String) (name : Option String) : String :=
  frm ++ pathDelimiter ++ ((optName name).getD "")

/-- Model of the private normalizeID method. It reads the resolver, the
virtual-mock set and the memo table, writes only the memo table, and can
raise exactly where full resolution is attempted; on a raise the memo table
is unchanged. -/
def normalizeIDCore (env : Env) (vmocks : List (String × Bool))
    (cache : List (String × String)) (frm : String) (name : Option String) :
    List (String × String) × Except RErr String :=
  let mn := (optName name).getD ""
  let key := frm ++ pathDelimiter ++ mn
  match cache.lookup key with
  | some id => (cache, .ok id)
  | none =>
    if env.resolver.isCoreModule mn then
      let id := "node" ++ pathDelimiter ++ mn ++ pathDelimiter
      (setA cache key id, .ok id)
    else
      let step1 : Except RErr (Option String × Option String) :=
        if (env.resolver.getModule mn).isNone &&
           (env.resolver.getMockModule mn).isNone then
          let abs0 : Option String :=
            if mn ≠ "" then
              let v := getVirtualMockPath frm mn
              if (vmocks.lookup v).isSome then some v else none
            else none
          match abs0 with
          | some v => .ok (some v, env.resolver.getMockModule mn)
          | none =>
            match resolveModuleOptStr env frm mn with
            | some p => .ok (some p, env.resolver.getMockModule mn)
            | none => .error .resolutionFailure
        else .ok (none, none)
      match step1 with
      | .error e => (cache, .error e)
      | .ok (abs1, mock1) =>
        let abs2 := match abs1 with
                    | some a => some a
                    | none => env.resolver.getModule mn
        let mock2 := match mock1 with
                     | some m => some m
                     | none => env.resolver.getMockModule mn
        let id := "user" ++ pathDelimiter ++ (abs2.getD "") ++ pathDelimiter
                   ++ (mock2.getD "")
        (setA cache key id, .ok id)

/-- Model of the private shouldCollectCoverage method, translated clause for
clause from the source expression. -/
def shouldCollectCoverage (env : Env) (filename : String) : Bool :=
  let scc :=
    (env.collectCoverage && env.collectCoverageOnlyFrom.isNone) ||
    (match env.collectCoverageOnlyFrom with
     | some m => m filename
     | none => false)
  scc &&
    !(env.coverageRegex filename) &&
    !(match env.mocksPattern with
      | some p => p filename
      | none => false) &&
    !(env.testRegex filename)

/-- Model of the private shouldMock method (the mock-policy oracle). -/
def shouldMock (env : Env) (st : RTState) (frm name : String) :
    RTState × Except RErr Bool :=
  let mockPath := getVirtualMockPath frm name
  if (st.virtualMocks.lookup mockPath).isSome then (st, .ok true)
  else
    let nrm := normalizeIDCore env st.virtualMocks st.normalizedIDCache frm
                 (some name)
    let st := {st with normalizedIDCache := nrm.1}
    match nrm.2 with
    | .error e => (st, .error e)
    | .ok moduleID =>
      let key := frm ++ pathDelimiter ++ moduleID
      match st.explicitShouldMock.lookup moduleID with
      | some b => (st, .ok b)
      | none =>
        if !st.shouldAutoMock || env.resolver.isCoreModule name ||
           ((st.shouldUnmockTransitiveDependenciesCache.lookup key).getD false)
        then (st, .ok false)
        else
          match st.shouldMockModuleCache.lookup moduleID with
          | some b => (st, .ok b)
          | none =>
            let manualMockResource := env.resolver.getMockModule name
            match resolveModuleOptStr env frm name with
            | none =>
              match manualMockResource with
              | some _ =>
                ({st with
                    shouldMockModuleCache :=
                      setA st.shouldMockModuleCache moduleID true},
                 .ok true)
              | none => (st, .error .resolutionFailure)
            | some modulePath =>
              if (match env.unmockList with
                  | some f => f modulePath
                  | none => false) then
                ({st with
                    shouldMockModuleCache :=
                      setA st.shouldMockModuleCache moduleID false},
                 .ok false)
              else
                let nrm2 := normalizeIDCore env st.virtualMocks
                              st.normalizedIDCache frm none
                let st := {st with normalizedIDCache := nrm2.1}
                match nrm2.2 with
                | .error e => (st, .error e)
                | .ok currentModuleID =>
                  if (st.transitiveShouldMock.lookup currentModuleID
                        == some false) ||
                     (containsSub frm nodeModulesSeg &&
                      containsSub modulePath nodeModulesSeg &&
                      ((match env.unmockList with
                        | some f => f frm
                        | none => false) ||
                       (st.explicitShouldMock.lookup currentModuleID
                          == some false))) then
                    ({st with
                        transitiveShouldMock :=
                          setA st.transitiveShouldMock moduleID false,
                        shouldUnmockTransitiveDependenciesCache :=
                          setA st.shouldUnmockTransitiveDependenciesCache key
                            true},
                     .ok false)
                  else
                    ({st with
                        shouldMockModuleCache :=
                          setA st.shouldMockModuleCache moduleID true},
                     .ok true)

/-- Model of setMock: the virtual path is registered before the identifier is
normalised, then the identifier is force-mocked and the factory stored. -/
def setMockF (env : Env) (st : RTState) (frm name : String)
    (factory : MockFactory) (virtual : Bool) : RTState × Except RErr Unit :=
  let st :=
    if virtual then
      {st with
        virtualMocks := setA st.virtualMocks (getVirtualMockPath frm name) true}
    else st
  let nrm := normalizeIDCore env st.virtualMocks st.normalizedIDCache frm
               (some name)
  let st := {st with normalizedIDCache := nrm.1}
  match nrm.2 with
  | .error e => (st, .error e)
  | .ok moduleID =>
    ({st with explicitShouldMock := setA st.explicitShouldMock moduleID true,
              mockFactories := setA st.mockFactories moduleID factory},
     .ok ())

def clearGVal (g : GVal) : GVal :=
  if g.isObjOrFn && g.isMockFunction then {g with calls := 0} else g

/-- Model of resetModuleRegistry: both registries are replaced with fresh
empty maps, then every mock function reachable as an own property of the
sandbox global is cleared, and the global mockClearTimers entry point is
invoked when present. -/
def resetModuleRegistryF (st : RTState) : RTState :=
  let st := {st with mockRegistry := [], moduleRegistry := []}
  match st.envGlobal with
  | none => st
  | some g =>
    let g := {g with
                vals := g.vals.map (fun kv => (kv.1, clearGVal kv.2)),
                timersCleared := g.hasMockClearTimers || g.timersCleared}
    {st with envGlobal := some g}

/-- Invoking a user mock factory. -/
def runFactory (st : RTState) : MockFactory → RTState × Value
  | .constV v => (st, v)
  | .freshObj fields =>
    let r := allocObj st fields
    (r.1, .obj r.2)
  | .effectThen v =>
    let r := allocObj st []
    (r.1, v)

/-- The metadata library inspecting a live value: objects snapshot their
fields, undefined and null admit no metadata (the library returns null),
other primitives are carried as-is. -/
def getMetadataF (st : RTState) : Value → Option Metadata
  | .obj a => some (.objMeta (heapGetObj st a))
  | .undefined => none
  | .nullV => none
  | v => some (.primMeta v)

/-- The metadata library re-materialising a mock value from metadata: object
metadata yields a freshly allocated object. -/
def generateFromMetadataF (st : RTState) : Metadata → RTState × Except RErr Value
  | .objMeta fields =>
    let r := allocObj st fields
    (r.1, .ok (.obj r.2))
  | .primMeta v => (st, .ok v)

/-- The tail of requireModule: read the (now populated) registry entry back
and return its exports. -/
def finishRequire (st : RTState) (p : String) : RTState × Except RErr Value :=
  match st.moduleRegistry.lookup p with
  | some rec => (st, .ok rec.exports)
  | none => (st, .error .typeError)

/-! ## The fuel-indexed interpreter over the mutually re-entrant operations -/

inductive Call where
  | reqModule (frm : String) (name : Option String)
  | reqMock (frm : String) (name : String)
  | reqModuleOrMock (frm : String) (name : String)
  | execMod (filename : String) (exportsAddr : Nat)
  | runBody (frm : String) (exportsAddr : Nat) (stmts : List Stmt)
  | genMock (frm : String) (name : String)
deriving Repr, DecidableEq

def runCall (env : Env) : Nat → Call → RTState → RTState × Except RErr Value
  | 0, _, st => (st, .error .outOfFuel)
  | Nat.succ fuel, c, st =>
    match c with
    | .reqModule frm name =>
      let nrm := normalizeIDCore env st.virtualMocks st.normalizedIDCache frm
                   name
      let st := {st with normalizedIDCache := nrm.1}
      match nrm.2 with
      | .error e => (st, .error e)
      | .ok moduleID =>
        let mn := optName name
        let moduleResource := mn.bind env.resolver.getModule
        let manualMockResource := mn.bind env.resolver.getMockModule
        let modulePathPre : Option String :=
          match moduleResource, manualMockResource with
          | none, some mm =>
            if st.isCurrentlyExecutingManualMock ≠ some mm ∧
               st.explicitShouldMock.lookup moduleID ≠ some false
            then some mm else none
          | _, _ => none
        if (mn.map env.resolver.isCoreModule).getD false then
          (st, .ok (env.nativeRequire (mn.getD "")))
        else
          match (match modulePathPre with
                 | some p => some p
                 | none =>
                   match mn with
                   | some n => env.resolver.resolveModule frm n
                   | none => some frm) with
          | none => (st, .error .resolutionFailure)
          | some p =>
            match st.moduleRegistry.lookup p with
            | some rec => (st, .ok rec.exports)
            | none =>
              let a := st.nextAddr
              let st := {st with
                          heap := (a, ([] : List (String × Value))) :: st.heap,
                          nextAddr := a + 1,
                          moduleRegistry :=
                            setA st.moduleRegistry p (ModuleRec.mk p (.obj a))}
              if extname p = ".json" then
                match st.envGlobal with
                | none => (st, .error .typeError)
                | some _ =>
                  let b := st.nextAddr
                  let st := {st with
                              heap := (b, env.jsonParse p) :: st.heap,
                              nextAddr := b + 1,
                              moduleRegistry :=
                                setA st.moduleRegistry p
                                  (ModuleRec.mk p (.obj b))}
                  finishRequire st p
              else if extname p = ".node" then
                let st := {st with
                            moduleRegistry :=
                              setA st.moduleRegistry p
                                (ModuleRec.mk p (env.nativeRequire p))}
                finishRequire st p
              else
                match runCall env fuel (.execMod p a) st with
                | (st, .error e) => (st, .error e)
                | (st, .ok _) => finishRequire st p
    | .reqMock frm name =>
      let nrm := normalizeIDCore env st.virtualMocks st.normalizedIDCache frm
                   (some name)
      let st := {st with normalizedIDCache := nrm.1}
      match nrm.2 with
      | .error e => (st, .error e)
      | .ok moduleID =>
        let cached := st.mockRegistry.lookup moduleID
        if (match cached with | some v => truthy v | none => false) then
          (st, .ok (cached.getD .undefined))
        else
          match st.mockFactories.lookup moduleID with
          | some f =>
            let fr := runFactory st f
            ({fr.1 with mockRegistry := setA fr.1.mockRegistry moduleID fr.2},
             .ok fr.2)
          | none =>
            match (match env.resolver.getMockModule name with
                   | some mm =>
                     match resolveModuleOptStr env frm mm with
                     | some p => Except.ok (true, p)
                     | none => Except.error RErr.resolutionFailure
                   | none =>
                     match resolveModuleOptStr env frm name with
                     | some p =>
                       let pot := dirname p ++ "/__mocks__/" ++ basenameStr p
                       if env.fsExists pot then Except.ok (true, pot)
                       else Except.ok (false, p)
                     | none => Except.error RErr.resolutionFailure) with
            | .error e => (st, .error e)
            | .ok (manual, p) =>
              if manual then
                let a := st.nextAddr
                let st := {st with
                            heap := (a, ([] : List (String × Value))) :: st.heap,
                            nextAddr := a + 1}
                match runCall env fuel (.execMod p a) st with
                | (st, .error e) => (st, .error e)
                | (st, .ok _) =>
                  let st := {st with
                              mockRegistry :=
                                setA st.mockRegistry moduleID (.obj a)}
                  (st, .ok ((st.mockRegistry.lookup moduleID).getD .undefined))
              else
                match runCall env fuel (.genMock frm name) st with
                | (st, .error e) => (st, .error e)
                | (st, .ok v) =>
                  let st := {st with
                              mockRegistry := setA st.mockRegistry moduleID v}
                  (st, .ok ((st.mockRegistry.lookup moduleID).getD .undefined))
    | .reqModuleOrMock frm name =>
      match shouldMock env st frm name with
      | (st, .error e) => (st, .error e)
      | (st, .ok true) => runCall env fuel (.reqMock frm name) st
      | (st, .ok false) => runCall env fuel (.reqModule frm (some name)) st
    | .execMod filename a =>
      match st.envGlobal with
      | none => (st, .ok .undefined)
      | some _ =>
        let scc := shouldCollectCoverage env filename
        match (if scc && !(st.coverageCollectors.contains filename) then
                 if env.hasCoverageCollectorClass then
                   Except.ok {st with
                     coverageCollectors := filename :: st.coverageCollectors}
                 else Except.error RErr.typeError
               else Except.ok st) with
        | .error e => (st, .error e)
        | .ok st =>
          let last := st.currentlyExecutingModulePath
          let orig := st.isCurrentlyExecutingManualMock
          let st := {st with currentlyExecutingModulePath := filename,
                             isCurrentlyExecutingManualMock := some filename}
          if env.transformOk filename then
            if env.runScriptOk filename then
              match runCall env fuel (.runBody filename a (env.bodies filename))
                      st with
              | (st, .error e) => (st, .error e)
              | (st, .ok _) =>
                ({st with isCurrentlyExecutingManualMock := orig,
                          currentlyExecutingModulePath := last},
                 .ok .undefined)
            else (st, .error .scriptError)
          else (st, .error .transformError)
    | .runBody frm a stmts =>
      match stmts with
      | [] => (st, .ok .undefined)
      | stmt :: rest =>
        match stmt with
        | .setExport k v =>
          runCall env fuel (.runBody frm a rest) (heapSetField st a k v)
        | .requireDiscard spec =>
          match runCall env fuel (.reqModuleOrMock frm spec) st with
          | (st, .error e) => (st, .error e)
          | (st, .ok _) => runCall env fuel (.runBody frm a rest) st
        | .requireField spec src k =>
          match runCall env fuel (.reqModuleOrMock frm spec) st with
          | (st, .error e) => (st, .error e)
          | (st, .ok v) =>
            let fv := match v with
                      | .obj b => ((heapGetObj st b).lookup src).getD .undefined
                      | _ => .undefined
            runCall env fuel (.runBody frm a rest) (heapSetField st a k fv)
        | .throwErr => (st, .error .userThrow)
    | .genMock frm name =>
      match resolveModuleOptStr env frm name with
      | none => (st, .error .resolutionFailure)
      | some modulePath =>
        if (st.mockMetaDataCache.lookup modulePath).isSome then
          generateFromMetadataF st
            ((st.mockMetaDataCache.lookup modulePath).getD emptyMeta)
        else
          let st := {st with
                      mockMetaDataCache :=
                        setA st.mockMetaDataCache modulePath emptyMeta}
          let origMock := st.mockRegistry
          let origModule := st.moduleRegistry
          let st := {st with mockRegistry := [], moduleRegistry := []}
          match runCall env fuel (.reqModule frm (some name)) st with
          | (st, .error e) => (st, .error e)
          | (st, .ok ex) =>
            let st := {st with mockRegistry := origMock,
                               moduleRegistry := origModule}
            match getMetadataF st ex with
            | none => (st, .error .mockMetadataFailure)
            | some md =>
              let st := {st with
                          mockMetaDataCache :=
                            setA st.mockMetaDataCache modulePath md}
              generateFromMetadataF st
                ((st.mockMetaDataCache.lookup modulePath).getD emptyMeta)

/-! ## Named entry points over the interpreter -/

def requireModule (env : Env) (fuel : Nat) (st : RTState) (frm : String)
    (name : Option String) : RTState × Except RErr Value :=
  runCall env fuel (.reqModule frm name) st

def requireMock (env : Env) (fuel : Nat) (st : RTState) (frm name : String) :
    RTState × Except RErr Value :=
  runCall env fuel (.reqMock frm name) st

def requireModuleOrMock (env : Env) (fuel : Nat) (st : RTState)
    (frm name : String) : RTState × Except RErr Value :=
  runCall env fuel (.reqModuleOrMock frm name) st

def execModule (env : Env) (fuel : Nat) (st : RTState) (filename : String)
    (exportsAddr : Nat) : RTState × Except RErr Value :=
  runCall env fuel (.execMod filename exportsAddr) st

def generateMock (env : Env) (fuel : Nat) (st : RTState) (frm name : String) :
    RTState × Except RErr Value :=
  runCall env fuel (.genMock frm name) st

/-! ## The per-file test facade (createRuntimeFor) -/

/-- What a facade method hands back: the facade object itself (for chaining)
or some other value. -/
inductive FacadeRet where
  | facadeSelf
  | value (v : Value)
deriving Repr, DecidableEq

def facadeDisableAutomock (st : RTState) : RTState × Except RErr FacadeRet :=
  ({st with shouldAutoMock := false}, .ok .facadeSelf)

def facadeEnableAutomock (st : RTState) : RTState × Except RErr FacadeRet :=
  ({st with shouldAutoMock := true}, .ok .facadeSelf)

def facadeUnmock (env : Env) (st : RTState) (frm name : String) :
    RTState × Except RErr FacadeRet :=
  let nrm := normalizeIDCore env st.virtualMocks st.normalizedIDCache frm
               (some name)
  let st := {st with normalizedIDCache := nrm.1}
  match nrm.2 with
  | .error e => (st, .error e)
  | .ok moduleID =>
    ({st with explicitShouldMock := setA st.explicitShouldMock moduleID false},
     .ok .facadeSelf)

def facadeDeepUnmock (env : Env) (st : RTState) (frm name : String) :
    RTState × Except RErr FacadeRet :=
  let nrm := normalizeIDCore env st.virtualMocks st.normalizedIDCache frm
               (some name)
  let st := {st with normalizedIDCache := nrm.1}
  match nrm.2 with
  | .error e => (st, .error e)
  | .ok moduleID =>
    ({st with
        explicitShouldMock := setA st.explicitShouldMock moduleID false,
        transitiveShouldMock := setA st.transitiveShouldMock moduleID false},
     .ok .facadeSelf)

def facadeMock (env : Env) (st : RTState) (frm name : String)
    (factory : Option MockFactory) (virtual : Bool) :
    RTState × Except RErr FacadeRet :=
  match factory with
  | some f =>
    match setMockF env st frm name f virtual with
    | (st, .error e) => (st, .error e)
    | (st, .ok _) => (st, .ok .facadeSelf)
  | none =>
    let nrm := normalizeIDCore env st.virtualMocks st.normalizedIDCache frm
                 (some name)
    let st := {st with normalizedIDCache := nrm.1}
    match nrm.2 with
    | .error e => (st, .error e)
    | .ok moduleID =>
      ({st with explicitShouldMock := setA st.explicitShouldMock moduleID true},
       .ok .facadeSelf)

def facadeSetMock (env : Env) (st : RTState) (frm name : String) (v : Value) :
    RTState × Except RErr FacadeRet :=
  match setMockF env st frm name (.constV v) false with
  | (st, .error e) => (st, .error e)
  | (st, .ok _) => (st, .ok .facadeSelf)

def facadeResetModuleRegistry (st : RTState) : RTState × Except RErr FacadeRet :=
  (resetModuleRegistryF st, .ok .facadeSelf)

def facadeUseFakeTimers (env : Env) (st : RTState) :
    RTState × Except RErr FacadeRet :=
  (st, .ok .facadeSelf)

def facadeUseRealTimers (env : Env) (st : RTState) :
    RTState × Except RErr FacadeRet :=
  (st, .ok .facadeSelf)

def facadeClearAllTimers (env : Env) (st : RTState) :
    RTState × Except RErr FacadeRet :=
  (st, .ok (.value env.fakeTimers.clearAllTimersRet))

def facadeRunAllTicks (env : Env) (st : RTState) :
    RTState × Except RErr FacadeRet :=
  (st, .ok (.value env.fakeTimers.runAllTicksRet))

def facadeRunAllImmediates (env : Env) (st : RTState) :
    RTState × Except RErr FacadeRet :=
  (st, .ok (.value env.fakeTimers.runAllImmediatesRet))

def facadeRunAllTimers (env : Env) (st : RTState) :
    RTState × Except RErr FacadeRet :=
  (st, .ok (.value env.fakeTimers.runAllTimersRet))

def facadeRunOnlyPendingTimers (env : Env) (st : RTState) :
    RTState × Except RErr FacadeRet :=
  (st, .ok (.value env.fakeTimers.runOnlyPendingTimersRet))

/-! ## Concrete fixtures used by witnesses and counterexamples -/

def R0 : Resolver :=
  { getModule := fun _ => none
    getMockModule := fun _ => none
    isCoreModule := fun _ => false
    resolveModule := fun _ _ => none }

def FT0 : FakeTimers :=
  { useFakeTimersRet := .undefined
    useRealTimersRet := .undefined
    clearAllTimersRet := .undefined
    runAllTicksRet := .undefined
    runAllImmediatesRet := .undefined
    runAllTimersRet := .undefined
    runOnlyPendingTimersRet := .undefined }

def env0 : Env :=
  { resolver := R0
    collectCoverage := false
    collectCoverageOnlyFrom := none
    coverageRegex := fun _ => false
    mocksPattern := none
    testRegex := fun _ => false
    unmockList := none
    fsExists := fun _ => false
    bodies := fun _ => []
    transformOk := fun _ => true
    runScriptOk := fun _ => true
    hasCoverageCollectorClass := false
    nativeRequire := fun _ => .undefined
    jsonParse := fun _ => []
    fakeTimers := FT0 }

def st0 : RTState :=
  { moduleRegistry := []
    mockRegistry := []
    mockFactories := []
    explicitShouldMock := []
    virtualMocks := []
    mockMetaDataCache := []
    shouldMockModuleCache := []
    shouldUnmockTransitiveDependenciesCache := []
    transitiveShouldMock := []
    normalizedIDCache := []
    shouldAutoMock := true
    currentlyExecutingModulePath := ""
    isCurrentlyExecutingManualMock := none
    coverageCollectors := []
    envGlobal := some { vals := [], hasMockClearTimers := false, timersCleared := false }
    heap := []
    nextAddr := 0 }

/-! ## Claim C1: the coverage predicate -/

/-- Modelled from the spec sentence for shouldCollectCoverage: coverage is
enabled AND (no allow-list is configured OR the filename is in it) AND none
of the three exclusion patterns match. This is the claim-side reading, to be
compared with the source-side shouldCollectCoverage. -/
def specShouldCollectCoverage (env : Env) (filename : String) : Bool :=
  env.collectCoverage &&
    (env.collectCoverageOnlyFrom.isNone ||
      (match env.collectCoverageOnlyFrom with
       | some m => m filename
       | none => false)) &&
    !(env.coverageRegex filename) &&
    !(match env.mocksPattern with
      | some p => p filename
      | none => false) &&
    !(env.testRegex filename)

def envC1 : Env :=
  { env0 with collectCoverageOnlyFrom := some (fun f => f == "/t/a.js") }

/-- C1 counterexample: with coverage collection disabled but an allow-list
containing the filename, the source predicate returns true while the claim
demands false (coverage enabled AND ...). The two sides of the conjunction
disagree at this concrete input, so the claim as stated is false. -/
theorem shouldCollectCoverage_claim_false :
    shouldCollectCoverage envC1 "/t/a.js" = true ∧
    specShouldCollectCoverage envC1 "/t/a.js" = false :=
  ⟨rfl, rfl⟩

/-- C1 amended: shouldCollectCoverage(filename) is true iff ((coverage
collection is enabled AND no allow-list is configured) OR (an allow-list is
configured AND the filename is a truthy key of it)) AND the filename does
not match the coverage-ignore pattern AND does not match the mocks pattern
AND does not match the test pattern. -/
theorem shouldCollectCoverage_amended (env : Env) (f : String) :
    shouldCollectCoverage env f = true ↔
      (((env.collectCoverage = true ∧ env.collectCoverageOnlyFrom = none) ∨
        (∃ m, env.collectCoverageOnlyFrom = some m ∧ m f = true)) ∧
       env.coverageRegex f = false ∧
       (∀ p, env.mocksPattern = some p → p f = false) ∧
       env.testRegex f = false) := by
  unfold shouldCollectCoverage
  cases hof : env.collectCoverageOnlyFrom <;>
    cases hmp : env.mocksPattern <;>
      simp [hof, hmp, Bool.and_eq_true, Bool.or_eq_true,
        Bool.not_eq_true', and_assoc]

/-- C1 amended, instantiated at the counterexample environment. -/
theorem shouldCollectCoverage_amended_witness :
    shouldCollectCoverage envC1 "/t/a.js" = true ↔
      (((envC1.collectCoverage = true ∧ envC1.collectCoverageOnlyFrom = none) ∨
        (∃ m, envC1.collectCoverageOnlyFrom = some m ∧ m "/t/a.js" = true)) ∧
       envC1.coverageRegex "/t/a.js" = false ∧
       (∀ p, envC1.mocksPattern = some p → p "/t/a.js" = false) ∧
       envC1.testRegex "/t/a.js" = false) :=
  shouldCollectCoverage_amended envC1 "/t/a.js"

/-! ## Claim C9: the reset frame -/

/-- C9: resetModuleRegistry leaves the mock-factory table, the explicit-mock
table, the mock-metadata cache and the virtual-mock set unchanged (and every
other runtime table and scalar except the sandbox-global mock-clear walk),
while the module registry and the mock registry are replaced by empty
mappings. -/
theorem resetModuleRegistry_frame (st : RTState) :
    (resetModuleRegistryF st).mockFactories = st.mockFactories ∧
    (resetModuleRegistryF st).explicitShouldMock = st.explicitShouldMock ∧
    (resetModuleRegistryF st).mockMetaDataCache = st.mockMetaDataCache ∧
    (resetModuleRegistryF st).virtualMocks = st.virtualMocks ∧
    (resetModuleRegistryF st).moduleRegistry = [] ∧
    (resetModuleRegistryF st).mockRegistry = [] ∧
    (resetModuleRegistryF st).shouldMockModuleCache = st.shouldMockModuleCache ∧
    (resetModuleRegistryF st).shouldUnmockTransitiveDependenciesCache =
      st.shouldUnmockTransitiveDependenciesCache ∧
    (resetModuleRegistryF st).transitiveShouldMock = st.transitiveShouldMock ∧
    (resetModuleRegistryF st).normalizedIDCache = st.normalizedIDCache ∧
    (resetModuleRegistryF st).shouldAutoMock = st.shouldAutoMock ∧
    (resetModuleRegistryF st).currentlyExecutingModulePath =
      st.currentlyExecutingModulePath ∧
    (resetModuleRegistryF st).isCurrentlyExecutingManualMock =
      st.isCurrentlyExecutingManualMock ∧
    (resetModuleRegistryF st).heap = st.heap ∧
    (resetModuleRegistryF st).nextAddr = st.nextAddr := by
  unfold resetModuleRegistryF
  cases st.envGlobal <;> simp

/-! ## Claim C8: facade chaining -/

/-- C8 counterexample: the timer-control method clearAllTimers is an
expression-bodied arrow returning the fake-timer subsystem's return value
(undefined), not the facade object, so the claim that every listed method
returns the facade fails at this concrete input. -/
theorem facade_chaining_claim_false :
    (facadeClearAllTimers env0 st0).2 = .ok (.value .undefined) ∧
    FacadeRet.value .undefined ≠ FacadeRet.facadeSelf :=
  ⟨rfl, by decide⟩

/-- C8 amended: enableAutomock, disableAutomock, mock, setMock, unmock,
deepUnmock, resetModuleRegistry, useFakeTimers and useRealTimers return the
facade itself whenever they return normally, but the timer-control methods
clearAllTimers, runAllTicks, runAllImmediates, runAllTimers and
runOnlyPendingTimers return the fake-timer subsystem's return value instead
of the facade. -/
theorem facade_chaining_amended (env : Env) (st st' : RTState)
    (frm name : String) (v : Value) (factory : Option MockFactory)
    (virtual : Bool) (r : FacadeRet) :
    (facadeEnableAutomock st).2 = .ok .facadeSelf ∧
    (facadeDisableAutomock st).2 = .ok .facadeSelf ∧
    (facadeMock env st frm name factory virtual = (st', .ok r) →
      r = .facadeSelf) ∧
    (facadeSetMock env st frm name v = (st', .ok r) → r = .facadeSelf) ∧
    (facadeUnmock env st frm name = (st', .ok r) → r = .facadeSelf) ∧
    (facadeDeepUnmock env st frm name = (st', .ok r) → r = .facadeSelf) ∧
    (facadeResetModuleRegistry st).2 = .ok .facadeSelf ∧
    (facadeUseFakeTimers env st).2 = .ok .facadeSelf ∧
    (facadeUseRealTimers env st).2 = .ok .facadeSelf ∧
    (facadeClearAllTimers env st).2 =
      .ok (.value env.fakeTimers.clearAllTimersRet) ∧
    (facadeRunAllTicks env st).2 = .ok (.value env.fakeTimers.runAllTicksRet) ∧
    (facadeRunAllImmediates env st).2 =
      .ok (.value env.fakeTimers.runAllImmediatesRet) ∧
    (facadeRunAllTimers env st).2 =
      .ok (.value env.fakeTimers.runAllTimersRet) ∧
    (facadeRunOnlyPendingTimers env st).2 =
      .ok (.value env.fakeTimers.runOnlyPendingTimersRet) := by
  refine ⟨rfl, rfl, ?_, ?_, ?_, ?_, rfl, rfl, rfl, rfl, rfl, rfl, rfl, rfl⟩
  · intro h
    cases factory with
    | none =>
      simp only [facadeMock] at h
      cases hn : (normalizeIDCore env st.virtualMocks st.normalizedIDCache frm
          (some name)).2 <;> rw [hn] at h <;> simp_all
    | some f =>
      simp only [facadeMock] at h
      rcases hs : setMockF env st frm name f virtual with ⟨st2, r2⟩
      rw [hs] at h
      cases r2 <;> simp_all
  · intro h
    simp only [facadeSetMock] at h
    rcases hs : setMockF env st frm name (.constV v) false with ⟨st2, r2⟩
    rw [hs] at h
    cases r2 <;> simp_all
  · intro h
    simp only [facadeUnmock] at h
    cases hn : (normalizeIDCore env st.virtualMocks st.normalizedIDCache frm
        (some name)).2 <;> rw [hn] at h <;> simp_all
  · intro h
    simp only [facadeDeepUnmock] at h
    cases hn : (normalizeIDCore env st.virtualMocks st.normalizedIDCache frm
        (some name)).2 <;> rw [hn] at h <;> simp_all

/-- C8 amended, applied at a concrete successful mock call: the no-factory
mock on an unresolvable name raises, so we use a virtual factory mock, which
succeeds and returns the facade. -/
theorem facade_chaining_amended_witness :
    (facadeMock env0 st0 "/t/x.js" "ghost" (some (.constV (.numV 1))) true =
       ((facadeMock env0 st0 "/t/x.js" "ghost"
          (some (.constV (.numV 1))) true).1, .ok .facadeSelf) →
      FacadeRet.facadeSelf = .facadeSelf) ∧
    FacadeRet.facadeSelf = FacadeRet.facadeSelf :=
  ⟨fun h =>
    (facade_chaining_amended env0 st0
      (facadeMock env0 st0 "/t/x.js" "ghost" (some (.constV (.numV 1))) true).1
      "/t/x.js" "ghost" (.numV 1) (some (.constV (.numV 1))) true
      .facadeSelf).2.2.1 h,
   rfl⟩

/-! ## Association-list lemmas and normalizeID memoisation lemmas -/

theorem lookup_setA_same {α : Type} (l : List (String × α)) (k : String)
    (v : α) : (setA l k v).lookup k = some v := by
  simp [setA, List.lookup]

theorem lookup_setA_preserve {α : Type} (l : List (String × α))
    (key k : String) (v w : α) (hfresh : l.lookup key = none)
    (h : l.lookup k = some w) : (setA l key v).lookup k = some w := by
  have hk : k ≠ key := by
    intro e
    rw [e, hfresh] at h
    cases h
  have hb : (k == key) = false := beq_eq_false_iff_ne.mpr hk
  simp [setA, List.lookup, hb, h]

/-- A memo-table hit makes normalizeID a pure read. -/
theorem normalizeIDCore_hit (env : Env) (vm : List (String × Bool))
    (c : List (String × String)) (frm : String) (name : Option String)
    (mid : String) (h : c.lookup (nKey frm name) = some mid) :
    normalizeIDCore env vm c frm name = (c, .ok mid) := by
  unfold nKey at h
  simp only [normalizeIDCore]
  rw [h]

/-- A successful normalizeID leaves its own key in the memo table. -/
theorem normalizeIDCore_lookup_of_ok (env : Env) (vm : List (String × Bool))
    (c c' : List (String × String)) (frm : String) (name : Option String)
    (mid : String) (h : normalizeIDCore env vm c frm name = (c', .ok mid)) :
    c'.lookup (nKey frm name) = some mid := by
  simp only [normalizeIDCore] at h
  unfold nKey
  repeat' split at h
  all_goals (
    injection h with h1 h2
    subst h1
    first
      | exact Except.noConfusion h2
      | (injection h2 with h3
         subst h3
         first
           | exact lookup_setA_same ..
           | assumption))

/-! ## Claim C5: the last explicit-mock marking wins -/

/-- C5: for a resolvable specifier whose virtual-mock candidate path is not
in the virtual-mock set, invoking the facade's mock (no factory) and then
unmock makes shouldMock return false, while unmock followed by mock makes
shouldMock return true: the most recent explicit marking decides. -/
theorem shouldMock_last_marking_wins (env : Env) (st : RTState)
    (frm name : String) (c1 : List (String × String)) (mid : String)
    (hn : normalizeIDCore env st.virtualMocks st.normalizedIDCache frm
            (some name) = (c1, .ok mid))
    (hv : st.virtualMocks.lookup (getVirtualMockPath frm name) = none) :
    (shouldMock env
        (facadeUnmock env (facadeMock env st frm name none false).1 frm name).1
        frm name).2 = .ok false ∧
    (shouldMock env
        (facadeMock env (facadeUnmock env st frm name).1 frm name none false).1
        frm name).2 = .ok true := by
  have hcached := normalizeIDCore_lookup_of_ok env st.virtualMocks
    st.normalizedIDCache c1 frm (some name) mid hn
  have hA : normalizeIDCore env st.virtualMocks c1 frm (some name) =
      (c1, .ok mid) :=
    normalizeIDCore_hit env st.virtualMocks c1 frm (some name) mid hcached
  constructor
  · simp [facadeMock, hn, facadeUnmock, hA, shouldMock, hv, lookup_setA_same]
  · simp [facadeMock, hn, facadeUnmock, hA, shouldMock, hv, lookup_setA_same]

def envC5 : Env :=
  { env0 with
    resolver := { R0 with
      resolveModule := fun f n =>
        if f = "/t/x.js" ∧ n = "./m" then some "/t/m.js" else none } }

/-- C5 applied at a concrete resolvable specifier. -/
theorem shouldMock_last_marking_wins_witness :
    normalizeIDCore envC5 st0.virtualMocks st0.normalizedIDCache "/t/x.js"
        (some "./m") =
      (setA st0.normalizedIDCache (nKey "/t/x.js" (some "./m"))
        ("user" ++ pathDelimiter ++ "/t/m.js" ++ pathDelimiter),
       .ok ("user" ++ pathDelimiter ++ "/t/m.js" ++ pathDelimiter)) ∧
    st0.virtualMocks.lookup (getVirtualMockPath "/t/x.js" "./m") = none ∧
    (shouldMock envC5
        (facadeUnmock envC5
          (facadeMock envC5 st0 "/t/x.js" "./m" none false).1 "/t/x.js"
          "./m").1
        "/t/x.js" "./m").2 = .ok false ∧
    (shouldMock envC5
        (facadeMock envC5 (facadeUnmock envC5 st0 "/t/x.js" "./m").1 "/t/x.js"
          "./m" none false).1
        "/t/x.js" "./m").2 = .ok true := by
  refine ⟨by rfl, by rfl, ?_⟩
  exact shouldMock_last_marking_wins envC5 st0 "/t/x.js" "./m"
    (setA st0.normalizedIDCache (nKey "/t/x.js" (some "./m"))
      ("user" ++ pathDelimiter ++ "/t/m.js" ++ pathDelimiter))
    ("user" ++ pathDelimiter ++ "/t/m.js" ++ pathDelimiter)
    (by rfl) (by rfl)

/-! ## Claim C10: requireMock caches only truthy factory results -/

/-- C10: with the identifier memoised, (a) a truthy cached mock value is
returned as-is, leaving the state untouched, so the factory runs at most
once between registry resets; (b) on a registry miss the factory is invoked
and its result stored under the identifier; (c) a falsy cached value fails
the truthiness cache test, so the factory is invoked anew on every call and
the fresh invocation's result is stored and returned. -/
theorem requireMock_factory_truthiness (env : Env) (st : RTState)
    (frm name : String) (mid : String) (f : MockFactory) (fuel : Nat)
    (hid : st.normalizedIDCache.lookup (nKey frm (some name)) = some mid) :
    (∀ v, st.mockRegistry.lookup mid = some v → truthy v = true →
      requireMock env (fuel + 1) st frm name = (st, .ok v)) ∧
    (st.mockRegistry.lookup mid = none →
      st.mockFactories.lookup mid = some f →
      requireMock env (fuel + 1) st frm name =
        ({(runFactory st f).1 with
            mockRegistry :=
              setA (runFactory st f).1.mockRegistry mid (runFactory st f).2},
         .ok (runFactory st f).2)) ∧
    (∀ v, st.mockRegistry.lookup mid = some v → truthy v = false →
      st.mockFactories.lookup mid = some f →
      requireMock env (fuel + 1) st frm name =
        ({(runFactory st f).1 with
            mockRegistry :=
              setA (runFactory st f).1.mockRegistry mid (runFactory st f).2},
         .ok (runFactory st f).2)) := by
  have hhit : normalizeIDCore env st.virtualMocks st.normalizedIDCache frm
      (some name) = (st.normalizedIDCache, .ok mid) :=
    normalizeIDCore_hit env st.virtualMocks st.normalizedIDCache frm
      (some name) mid hid
  refine ⟨?_, ?_, ?_⟩
  · intro v hv ht
    simp [requireMock, runCall, hhit, hv, ht]
  · intro hv hf
    simp [requireMock, runCall, hhit, hv, hf]
  · intro v hv ht hf
    simp [requireMock, runCall, hhit, hv, ht, hf]

def stC10 : RTState :=
  { st0 with
    normalizedIDCache := [(nKey "/t/x.js" (some "m"), "user:/t/m.js:")]
    mockRegistry := [("user:/t/m.js:", .undefined)]
    mockFactories := [("user:/t/m.js:", .effectThen .undefined)] }

/-- C10 applied at a factory whose result is falsy (undefined): the cached
undefined fails the truthiness test and the factory is re-invoked, its
allocation side effect observable in the returned state. -/
theorem requireMock_factory_truthiness_witness :
    requireMock envC5 2 stC10 "/t/x.js" "m" =
      ({(runFactory stC10 (.effectThen .undefined)).1 with
          mockRegistry :=
            setA (runFactory stC10 (.effectThen .undefined)).1.mockRegistry
              "user:/t/m.js:"
              (runFactory stC10 (.effectThen .undefined)).2},
       .ok (runFactory stC10 (.effectThen .undefined)).2) :=
  (requireMock_factory_truthiness envC5 stC10 "/t/x.js" "m" "user:/t/m.js:"
      (.effectThen .undefined) 1 (by rfl)).2.2 .undefined (by rfl) (by rfl)
    (by rfl)

/-! ## Claim C7: virtual-mock ghosts -/

/-- A memo-table hit stated with the raw key of a nonempty specifier. -/
theorem normalizeIDCore_hit_str (env : Env) (vm : List (String × Bool))
    (c : List (String × String)) (frm name mid : String) (hne : name ≠ "")
    (h : c.lookup (frm ++ pathDelimiter ++ name) = some mid) :
    normalizeIDCore env vm c frm (some name) = (c, .ok mid) := by
  unfold normalizeIDCore
  simp [optName, hne, h]

/-- The state produced by the facade mock(name, factory, virtual) call under
the hypotheses of the virtual-mock claim: the virtual path is registered, the
identifier (built from the virtual path) is memoised, force-mocked, and bound
to the factory. -/
def virtualMockState (st : RTState) (frm name : String) (f : MockFactory) :
    RTState :=
  {st with
    virtualMocks := setA st.virtualMocks (getVirtualMockPath frm name) true,
    normalizedIDCache :=
      setA st.normalizedIDCache (frm ++ pathDelimiter ++ name)
        ("user" ++ pathDelimiter ++ getVirtualMockPath frm name ++
          pathDelimiter),
    explicitShouldMock :=
      setA st.explicitShouldMock
        ("user" ++ pathDelimiter ++ getVirtualMockPath frm name ++
          pathDelimiter) true,
    mockFactories :=
      setA st.mockFactories
        ("user" ++ pathDelimiter ++ getVirtualMockPath frm name ++
          pathDelimiter) f}

/-- C7: for a specifier that resolves to no file, the facade's mock with a
factory and the virtual option first adds the computed virtual path to the
virtual-mock set (so identifier normalisation succeeds without consulting
resolution), then shouldMock answers true for the pair, and a subsequent
require from the same file delivers exactly the factory's return value
through requireMock's factory branch. The environment's filesystem oracle
and its resolveModule outcome are arbitrary, so no filesystem read can have
contributed to the delivered value. -/
theorem virtualMock_factory_delivery (env : Env) (st : RTState)
    (frm name : String) (v : Value) (fuel : Nat)
    (hne : name ≠ "")
    (hgm : env.resolver.getModule name = none)
    (hmm : env.resolver.getMockModule name = none)
    (hcore : env.resolver.isCoreModule name = false)
    (hic : st.normalizedIDCache.lookup (frm ++ pathDelimiter ++ name) = none)
    (hmr : st.mockRegistry.lookup
      ("user" ++ pathDelimiter ++ getVirtualMockPath frm name ++ pathDelimiter)
        = none) :
    facadeMock env st frm name (some (.constV v)) true =
      (virtualMockState st frm name (.constV v), .ok .facadeSelf) ∧
    (shouldMock env (virtualMockState st frm name (.constV v)) frm name).2 =
      .ok true ∧
    requireModuleOrMock env (fuel + 2)
        (virtualMockState st frm name (.constV v)) frm name =
      ({virtualMockState st frm name (.constV v) with
          mockRegistry :=
            setA (virtualMockState st frm name (.constV v)).mockRegistry
              ("user" ++ pathDelimiter ++ getVirtualMockPath frm name ++
                pathDelimiter) v},
       .ok v) := by
  have hhit : normalizeIDCore env
      (setA st.virtualMocks (getVirtualMockPath frm name) true)
      (setA st.normalizedIDCache (frm ++ pathDelimiter ++ name)
        ("user" ++ pathDelimiter ++ getVirtualMockPath frm name ++
          pathDelimiter))
      frm (some name) =
      (setA st.normalizedIDCache (frm ++ pathDelimiter ++ name)
        ("user" ++ pathDelimiter ++ getVirtualMockPath frm name ++
          pathDelimiter),
       .ok ("user" ++ pathDelimiter ++ getVirtualMockPath frm name ++
          pathDelimiter)) :=
    normalizeIDCore_hit_str env _ _ frm name _ hne (lookup_setA_same _ _ _)
  refine ⟨?_, ?_, ?_⟩
  · simp [facadeMock, setMockF, normalizeIDCore, optName, hne, hic, hcore,
      hgm, hmm, lookup_setA_same, String.append_empty, virtualMockState]
  · simp [shouldMock, virtualMockState, lookup_setA_same]
  · simp [requireModuleOrMock, runCall, shouldMock, virtualMockState,
      lookup_setA_same, hhit, hmr, requireMock, runFactory]

/-- C7 applied at a concrete unresolvable bare specifier: the virtual mock
delivers the factory's value 42. -/
theorem virtualMock_factory_delivery_witness :
    requireModuleOrMock env0 2
        (virtualMockState st0 "/t/x.js" "ghost" (.constV (.numV 42)))
        "/t/x.js" "ghost" =
      ({virtualMockState st0 "/t/x.js" "ghost" (.constV (.numV 42)) with
          mockRegistry :=
            setA (virtualMockState st0 "/t/x.js" "ghost"
                (.constV (.numV 42))).mockRegistry
              ("user" ++ pathDelimiter ++ getVirtualMockPath "/t/x.js" "ghost"
                ++ pathDelimiter) (.numV 42)},
       .ok (.numV 42)) :=
  (virtualMock_factory_delivery env0 st0 "/t/x.js" "ghost" (.numV 42) 0
    (by decide) rfl rfl rfl rfl rfl).2.2

/-! ## Claim C2: execModule and the currently-executing scalars -/

def envC2 : Env := { env0 with transformOk := fun _ => false }

/-- C2 counterexample: when transformation raises, execModule propagates the
exception without restoring the two scalars; both remain set to the failing
record's filename although they were empty and unset on entry. -/
theorem execModule_restore_claim_false :
    (execModule envC2 2 st0 "/t/m.js" 0).2 = .error .transformError ∧
    (execModule envC2 2 st0 "/t/m.js" 0).1.currentlyExecutingModulePath =
      "/t/m.js" ∧
    (execModule envC2 2 st0 "/t/m.js" 0).1.isCurrentlyExecutingManualMock =
      some "/t/m.js" ∧
    st0.currentlyExecutingModulePath = "" ∧
    st0.isCurrentlyExecutingManualMock = none :=
  ⟨rfl, rfl, rfl, rfl, rfl⟩

/-- C2 amended: execModule saves the two currently-executing scalars and sets
both to the record's filename, and restores the saved values on the normal
exit path; but when transformation, script evaluation or the wrapper
invocation raises, the exception propagates without restoration: after a
transform or evaluation failure both scalars are left set to this record's
filename, and after a wrapper throw they are left exactly as the failing
body execution left them. (Stated under a sandbox that is not torn down and
with coverage collection disabled for the file.) -/
theorem execModule_restore_amended (env : Env) (st : RTState)
    (g : EnvGlobalState) (fn : String) (a fuel : Nat)
    (hg : st.envGlobal = some g)
    (hcov : shouldCollectCoverage env fn = false) :
    (∀ stB w, env.transformOk fn = true → env.runScriptOk fn = true →
      runCall env fuel (.runBody fn a (env.bodies fn))
          {st with currentlyExecutingModulePath := fn,
                   isCurrentlyExecutingManualMock := some fn} = (stB, .ok w) →
      execModule env (fuel + 1) st fn a =
        ({stB with
            isCurrentlyExecutingManualMock := st.isCurrentlyExecutingManualMock,
            currentlyExecutingModulePath := st.currentlyExecutingModulePath},
         .ok .undefined)) ∧
    (env.transformOk fn = false →
      execModule env (fuel + 1) st fn a =
        ({st with currentlyExecutingModulePath := fn,
                  isCurrentlyExecutingManualMock := some fn},
         .error .transformError)) ∧
    (env.transformOk fn = true → env.runScriptOk fn = false →
      execModule env (fuel + 1) st fn a =
        ({st with currentlyExecutingModulePath := fn,
                  isCurrentlyExecutingManualMock := some fn},
         .error .scriptError)) ∧
    (∀ stB e, env.transformOk fn = true → env.runScriptOk fn = true →
      runCall env fuel (.runBody fn a (env.bodies fn))
          {st with currentlyExecutingModulePath := fn,
                   isCurrentlyExecutingManualMock := some fn} =
        (stB, .error e) →
      execModule env (fuel + 1) st fn a = (stB, .error e)) := by
  obtain ⟨mreg, mkreg, mf, esm, vm, mmc, smc, sutc, tsm, nic, sam, cemp,
    icem, cc, eg, hp, na⟩ := st
  dsimp only at hg
  subst hg
  refine ⟨?_, ?_, ?_, ?_⟩
  · intro stB w ht hs hb
    simp [execModule, runCall, hcov, ht, hs, hb]
  · intro ht
    simp [execModule, runCall, hcov, ht]
  · intro ht hs
    simp [execModule, runCall, hcov, ht, hs]
  · intro stB e ht hs hb
    simp [execModule, runCall, hcov, ht, hs, hb]

/-- C2 amended applied on the normal path at a module with an empty body:
the scalars are restored to their entry values. -/
theorem execModule_restore_amended_witness :
    execModule env0 2 st0 "/t/m.js" 0 =
      ({{st0 with currentlyExecutingModulePath := "/t/m.js",
                  isCurrentlyExecutingManualMock := some "/t/m.js"} with
          isCurrentlyExecutingManualMock := st0.isCurrentlyExecutingManualMock,
          currentlyExecutingModulePath := st0.currentlyExecutingModulePath},
       .ok .undefined) :=
  (execModule_restore_amended env0 st0
      { vals := [], hasMockClearTimers := false, timersCleared := false }
      "/t/m.js" 0 1 rfl rfl).1
    {st0 with currentlyExecutingModulePath := "/t/m.js",
              isCurrentlyExecutingManualMock := some "/t/m.js"}
    .undefined rfl rfl rfl

/-! ## Claim C6: generateMock and the caller's registries -/

def envC6 : Env :=
  { env0 with
    resolver := { R0 with
      resolveModule := fun f n =>
        if f = "/t/x.js" ∧ n = "m" then some "/t/m.js" else none }
    bodies := fun f => if f = "/t/m.js" then [.throwErr] else [] }

def stC6 : RTState :=
  { st0 with
    moduleRegistry := [("/t/keep.js", ⟨"/t/keep.js", .obj 5⟩)]
    mockRegistry := [("k", .numV 7)] }

/-- C6 counterexample: when the isolated execution of the real module throws
(here the module body raises), generateMock propagates the exception without
restoring the swapped registries: the caller's module-registry and
mock-registry entries present before the call are gone afterwards. -/
theorem generateMock_isolation_claim_false :
    (generateMock envC6 4 stC6 "/t/x.js" "m").2 = .error .userThrow ∧
    stC6.moduleRegistry.lookup "/t/keep.js" =
      some ⟨"/t/keep.js", .obj 5⟩ ∧
    (generateMock envC6 4 stC6 "/t/x.js" "m").1.moduleRegistry.lookup
      "/t/keep.js" = none ∧
    stC6.mockRegistry.lookup "k" = some (.numV 7) ∧
    (generateMock envC6 4 stC6 "/t/x.js" "m").1.mockRegistry.lookup "k" =
      none :=
  ⟨rfl, rfl, rfl, rfl, rfl⟩

/-- C6 amended: generateMock leaves the caller's module registry and mock
registry exactly as they were on the metadata-cached path and on every path
that passes the isolated requireModule call, including the
metadata-extraction failure exit; but when the isolated requireModule
throws, the exception propagates with the fresh (swapped-in) registries
still installed, so the caller's registries are not restored on that exit
path. -/
theorem generateMock_isolation_amended (env : Env) (st : RTState)
    (frm name mp : String) (fuel : Nat)
    (hres : resolveModuleOptStr env frm name = some mp) :
    (∀ st' r, (st.mockMetaDataCache.lookup mp).isSome = true →
      generateMock env (fuel + 1) st frm name = (st', r) →
      st'.moduleRegistry = st.moduleRegistry ∧
      st'.mockRegistry = st.mockRegistry) ∧
    (∀ stR ex st' r, st.mockMetaDataCache.lookup mp = none →
      runCall env fuel (.reqModule frm (some name))
          {st with moduleRegistry := [], mockRegistry := [],
                   mockMetaDataCache :=
                     setA st.mockMetaDataCache mp emptyMeta} = (stR, .ok ex) →
      generateMock env (fuel + 1) st frm name = (st', r) →
      st'.moduleRegistry = st.moduleRegistry ∧
      st'.mockRegistry = st.mockRegistry) ∧
    (∀ stR e, st.mockMetaDataCache.lookup mp = none →
      runCall env fuel (.reqModule frm (some name))
          {st with moduleRegistry := [], mockRegistry := [],
                   mockMetaDataCache :=
                     setA st.mockMetaDataCache mp emptyMeta} =
        (stR, .error e) →
      generateMock env (fuel + 1) st frm name = (stR, .error e)) := by
  refine ⟨?_, ?_, ?_⟩
  · intro st' r hc hgen
    simp only [generateMock, runCall, hres, hc, if_true] at hgen
    cases hm : (st.mockMetaDataCache.lookup mp).getD emptyMeta with
    | objMeta fields =>
      rw [hm] at hgen
      simp only [generateFromMetadataF, allocObj, Prod.mk.injEq] at hgen
      obtain ⟨h1, h2⟩ := hgen
      subst h1
      exact ⟨rfl, rfl⟩
    | primMeta v =>
      rw [hm] at hgen
      simp only [generateFromMetadataF, Prod.mk.injEq] at hgen
      obtain ⟨h1, h2⟩ := hgen
      subst h1
      exact ⟨rfl, rfl⟩
  · intro stR ex st' r hc hiso hgen
    simp only [generateMock, runCall, hres, hc, Option.isSome_none,
      Bool.false_eq_true, if_false] at hgen
    rw [hiso] at hgen
    dsimp only at hgen
    cases hmeta : getMetadataF
        {stR with mockRegistry := st.mockRegistry,
                  moduleRegistry := st.moduleRegistry} ex with
    | none =>
      rw [hmeta] at hgen
      simp only [Prod.mk.injEq] at hgen
      obtain ⟨h1, h2⟩ := hgen
      subst h1
      exact ⟨rfl, rfl⟩
    | some md =>
      rw [hmeta] at hgen
      simp only [lookup_setA_same, Option.getD_some] at hgen
      cases md with
      | objMeta fields =>
        simp only [generateFromMetadataF, allocObj, Prod.mk.injEq] at hgen
        obtain ⟨h1, h2⟩ := hgen
        subst h1
        exact ⟨rfl, rfl⟩
      | primMeta v =>
        simp only [generateFromMetadataF, Prod.mk.injEq] at hgen
        obtain ⟨h1, h2⟩ := hgen
        subst h1
        exact ⟨rfl, rfl⟩
  · intro stR e hc hiso
    simp only [generateMock, runCall, hres, hc, Option.isSome_none,
      Bool.false_eq_true, if_false]
    rw [hiso]

/-- C6 amended applied at the throwing module: the exception propagates and
the final state is the one the failed isolated run left behind. -/
theorem generateMock_isolation_amended_witness :
    generateMock envC6 4 stC6 "/t/x.js" "m" =
      ((runCall envC6 3 (.reqModule "/t/x.js" (some "m"))
          {stC6 with moduleRegistry := [], mockRegistry := [],
                     mockMetaDataCache :=
                       setA stC6.mockMetaDataCache "/t/m.js" emptyMeta}).1,
       .error .userThrow) :=
  (generateMock_isolation_amended envC6 stC6 "/t/x.js" "m" "/t/m.js" 3
      rfl).2.2
    (runCall envC6 3 (.reqModule "/t/x.js" (some "m"))
      {stC6 with moduleRegistry := [], mockRegistry := [],
                 mockMetaDataCache :=
                   setA stC6.mockMetaDataCache "/t/m.js" emptyMeta}).1
    .userThrow rfl rfl

/-! ## Claim C3: placeholder-first insertion and cycle tolerance -/

/-- C3: for a requireModule call on a user specifier resolving to a path p
that the runtime executes, (i) when p has no registry entry, the call is
exactly: insert a placeholder record with fresh empty exports into the
module registry, then run execModule, then read the entry back — so the
placeholder is in the registry before any part of the module body runs; and
(ii) when p already has a registry entry (as it does during that body's
execution, by (i)), a re-entrant requireModule resolving to p returns that
same record's exports immediately: the module registry, heap and allocator
are untouched, no execution of any module body happens, and the call
returns at any positive fuel, so the recursion is bounded. -/
theorem requireModule_placeholder_cycle (env : Env) (st : RTState)
    (frm name p : String) (fuel : Nat)
    (hne : name ≠ "")
    (hgm : env.resolver.getModule name = none)
    (hmm : env.resolver.getMockModule name = none)
    (hcore : env.resolver.isCoreModule name = false)
    (hvm : st.virtualMocks.lookup (getVirtualMockPath frm name) = none)
    (hres : env.resolver.resolveModule frm name = some p)
    (hext1 : ¬extname p = ".json") (hext2 : ¬extname p = ".node") :
    (st.moduleRegistry.lookup p = none →
      requireModule env (fuel + 1) st frm (some name) =
        (match runCall env fuel (.execMod p st.nextAddr)
            {st with
              normalizedIDCache :=
                (normalizeIDCore env st.virtualMocks st.normalizedIDCache frm
                  (some name)).1,
              heap := (st.nextAddr, ([] : List (String × Value))) :: st.heap,
              nextAddr := st.nextAddr + 1,
              moduleRegistry :=
                setA st.moduleRegistry p (ModuleRec.mk p (.obj st.nextAddr))}
          with
        | (st4, .error e) => (st4, .error e)
        | (st4, .ok _) => finishRequire st4 p)) ∧
    (∀ rec, st.moduleRegistry.lookup p = some rec →
      requireModule env (fuel + 1) st frm (some name) =
        ({st with
            normalizedIDCache :=
              (normalizeIDCore env st.virtualMocks st.normalizedIDCache frm
                (some name)).1},
         .ok rec.exports)) := by
  have hnok : ∃ c1 mid, normalizeIDCore env st.virtualMocks
      st.normalizedIDCache frm (some name) = (c1, .ok mid) := by
    cases hc : st.normalizedIDCache.lookup (frm ++ pathDelimiter ++ name) with
    | some mid =>
      exact ⟨st.normalizedIDCache, mid,
        normalizeIDCore_hit_str env _ _ frm name mid hne hc⟩
    | none =>
      refine ⟨setA st.normalizedIDCache (frm ++ pathDelimiter ++ name)
        ("user" ++ pathDelimiter ++ p ++ pathDelimiter),
        "user" ++ pathDelimiter ++ p ++ pathDelimiter, ?_⟩
      unfold normalizeIDCore
      simp [optName, hne, hc, hcore, hgm, hmm, hvm, resolveModuleOptStr, hres,
        String.append_empty]
  obtain ⟨c1, mid, hn⟩ := hnok
  constructor
  · intro hreg
    simp only [requireModule, runCall, hn]
    simp [optName, hne, hgm, hmm, hcore, hres, hreg, hext1, hext2]
  · intro rec hreg
    simp only [requireModule, runCall, hn]
    simp [optName, hne, hgm, hmm, hcore, hres, hreg]

def envC3 : Env :=
  { env0 with
    resolver := { R0 with
      resolveModule := fun f n =>
        if f = "/t/a.js" ∧ n = "./a" then some "/t/a.js" else none }
    bodies := fun f =>
      if f = "/t/a.js" then
        [.setExport "a" (.numV 1), .requireField "./a" "a" "seen",
         .setExport "a" (.numV 2)]
      else [] }

def stC3 : RTState :=
  { st0 with
    shouldAutoMock := false
    moduleRegistry := [("/t/a.js", ⟨"/t/a.js", .obj 0⟩)] }

/-- C3 applied at a concrete re-entrant require: with the placeholder for
/t/a.js already registered, require of ./a from inside /t/a.js returns that
record's exports object unchanged. -/
theorem requireModule_placeholder_cycle_witness :
    requireModule envC3 1 stC3 "/t/a.js" (some "./a") =
      ({stC3 with
          normalizedIDCache :=
            (normalizeIDCore envC3 stC3.virtualMocks stC3.normalizedIDCache
              "/t/a.js" (some "./a")).1},
       .ok (ModuleRec.mk "/t/a.js" (.obj 0)).exports) :=
  (requireModule_placeholder_cycle envC3 stC3 "/t/a.js" "./a" "/t/a.js" 0
      (by decide) rfl rfl rfl rfl rfl (by decide) (by decide)).2
    (ModuleRec.mk "/t/a.js" (.obj 0)) rfl

/-! ## Monotone facts preserved by every successful interpreter run -/

def Mono (s t : RTState) : Prop :=
  (∀ k i, s.normalizedIDCache.lookup k = some i →
    t.normalizedIDCache.lookup k = some i) ∧
  (∀ q r, s.moduleRegistry.lookup q = some r →
    t.moduleRegistry.lookup q = some r) ∧
  s.nextAddr ≤ t.nextAddr

theorem mono_rfl (s : RTState) : Mono s s :=
  ⟨fun _ _ hk => hk, fun _ _ hq => hq, le_refl _⟩

theorem mono_trans {a b c : RTState} (h1 : Mono a b) (h2 : Mono b c) :
    Mono a c :=
  ⟨fun k i hk => h2.1 k i (h1.1 k i hk),
   fun q r hq => h2.2.1 q r (h1.2.1 q r hq),
   le_trans h1.2.2 h2.2.2⟩

theorem lookup_setA_ne {α : Type} (l : List (String × α)) (key k : String)
    (v : α) (hne : ¬k = key) : (setA l key v).lookup k = l.lookup k := by
  have hb : (k == key) = false := beq_eq_false_iff_ne.mpr hne
  simp [setA, List.lookup, hb]

theorem normalizeIDCore_cache_pres (env : Env) (vm : List (String × Bool))
    (c : List (String × String)) (frm : String) (name : Option String)
    (c' : List (String × String)) (r : Except RErr String)
    (hr : normalizeIDCore env vm c frm name = (c', r)) :
    ∀ k i, c.lookup k = some i → c'.lookup k = some i := by
  intro k i hk
  simp only [normalizeIDCore] at hr
  repeat' split at hr
  all_goals (
    injection hr with h1 h2
    subst h1
    first
      | exact hk
      | exact lookup_setA_preserve _ _ _ _ _ (by assumption) hk)

theorem normalizeIDCore_fst_pres (env : Env) (vm : List (String × Bool))
    (c : List (String × String)) (frm : String) (name : Option String)
    (k i : String) (hk : c.lookup k = some i) :
    (normalizeIDCore env vm c frm name).1.lookup k = some i :=
  normalizeIDCore_cache_pres env vm c frm name _ _ rfl k i hk

theorem shouldMock_mono (env : Env) (st : RTState) (frm name : String)
    (st' : RTState) (r : Except RErr Bool)
    (h : shouldMock env st frm name = (st', r)) : Mono st st' := by
  simp only [shouldMock] at h
  repeat' split at h
  all_goals (
    injection h with h1 h2
    subst h1
    refine ⟨fun k i hk => ?_, fun q r2 hq => hq, le_refl _⟩
    first
      | exact hk
      | exact normalizeIDCore_fst_pres env _ _ frm (some name) k i hk
      | exact normalizeIDCore_fst_pres env _ _ frm none k i
          (normalizeIDCore_fst_pres env _ _ frm (some name) k i hk))

theorem finishRequire_fst (st : RTState) (p : String) :
    (finishRequire st p).1 = st := by
  unfold finishRequire
  split <;> rfl

theorem runFactory_mono (st : RTState) (f : MockFactory) :
    Mono st (runFactory st f).1 := by
  cases f <;>
    exact ⟨fun _ _ hk => hk, fun _ _ hq => hq, by simp [runFactory, allocObj]⟩

theorem generateFromMetadataF_mono (st : RTState) (md : Metadata) :
    Mono st (generateFromMetadataF st md).1 := by
  cases md <;>
    exact ⟨fun _ _ hk => hk, fun _ _ hq => hq,
      by simp [generateFromMetadataF, allocObj]⟩

theorem runCall_ok_mono (env : Env) :
    ∀ fuel c st st' v, runCall env fuel c st = (st', .ok v) → Mono st st' := by
  intro fuel
  induction fuel with
  | zero =>
    intro c st st' v h
    simp [runCall] at h
  | succ n ih =>
    intro c st st' v h
    cases c with
    | reqModuleOrMock frm name =>
      simp only [runCall] at h
      rcases hsm : shouldMock env st frm name with ⟨stX, rX⟩
      rw [hsm] at h
      have hm1 := shouldMock_mono env st frm name stX rX hsm
      cases rX with
      | error e => simp at h
      | ok b =>
        cases b
        · dsimp only at h
          exact mono_trans hm1 (ih _ _ _ _ h)
        · dsimp only at h
          exact mono_trans hm1 (ih _ _ _ _ h)
    | runBody frm a stmts =>
      simp only [runCall] at h
      cases stmts with
      | nil =>
        dsimp only at h
        injection h with h1 h2
        subst h1
        exact mono_rfl _
      | cons stmt rest =>
        cases stmt with
        | setExport k v2 =>
          dsimp only at h
          have h2 := ih _ _ _ _ h
          exact mono_trans ⟨fun _ _ hk => hk, fun _ _ hq => hq, le_refl _⟩ h2
        | requireDiscard spec =>
          dsimp only at h
          rcases hr : runCall env n (.reqModuleOrMock frm spec) st with ⟨stX, rX⟩
          rw [hr] at h
          cases rX with
          | error e => simp at h
          | ok w =>
            dsimp only at h
            exact mono_trans (ih _ _ _ _ hr) (ih _ _ _ _ h)
        | requireField spec src k =>
          dsimp only at h
          rcases hr : runCall env n (.reqModuleOrMock frm spec) st with ⟨stX, rX⟩
          rw [hr] at h
          cases rX with
          | error e => simp at h
          | ok w =>
            dsimp only at h
            have h2 := ih _ _ _ _ h
            exact mono_trans (ih _ _ _ _ hr)
              (mono_trans ⟨fun _ _ hk => hk, fun _ _ hq => hq, le_refl _⟩ h2)
        | throwErr =>
          dsimp only at h
          simp at h
    | execMod filename a =>
      simp only [runCall] at h
      cases hg : st.envGlobal with
      | none =>
        rw [hg] at h
        injection h with h1 h2
        subst h1
        exact mono_rfl _
      | some g =>
        rw [hg] at h
        repeat' split at h
        all_goals try (simp at h ; done)
        · rename_i x heq
          exact Option.noConfusion heq
        · rename_i x2 g2 heqg2 x1 st1 heqCov ht hs x0 stB w heqB
          injection h with h1 h2
          subst h1
          have hcov : Mono st st1 := by
            split at heqCov
            · split at heqCov
              · injection heqCov with h3
                subst h3
                exact ⟨fun _ _ hk => hk, fun _ _ hq => hq, le_refl _⟩
              · cases heqCov
            · injection heqCov with h3
              subst h3
              exact mono_rfl _
          have hB := ih _ _ _ _ heqB
          exact mono_trans hcov (mono_trans
            ⟨fun _ _ hk => hk, fun _ _ hq => hq, le_refl _⟩
            (mono_trans hB
              ⟨fun _ _ hk => hk, fun _ _ hq => hq, le_refl _⟩))
    | reqModule frm name =>
      simp only [runCall] at h
      rcases hn : normalizeIDCore env st.virtualMocks st.normalizedIDCache frm
        name with ⟨c1, rn⟩
      rw [hn] at h
      have monoN : Mono st {st with normalizedIDCache := c1} :=
        ⟨fun k i hk => normalizeIDCore_cache_pres env _ _ frm name _ _ hn k i hk,
         fun _ _ hq => hq, le_refl _⟩
      cases rn with
      | error e => simp at h
      | ok moduleID =>
        dsimp only at h
        repeat' split at h
        all_goals try (simp at h ; done)
        all_goals try (
          injection h with h1 h2
          subst h1
          exact monoN)
        · rename_i hcore xa mp heqPath xb hfresh hjson xc g2 heqg
          have h1 := congrArg Prod.fst h
          rw [finishRequire_fst] at h1
          dsimp only at h1
          subst h1
          refine ⟨fun k i hk =>
            normalizeIDCore_cache_pres env _ _ frm name _ _ hn k i hk,
            fun q r hq => ?_, ?_⟩
          · dsimp only
            have hne : ¬q = mp := fun e => by
              rw [e, hfresh] at hq
              cases hq
            rw [lookup_setA_ne _ _ _ _ hne, lookup_setA_ne _ _ _ _ hne]
            exact hq
          · dsimp only
            omega
        · rename_i hcore xa mp heqPath xb hfresh hnjson hnode
          have h1 := congrArg Prod.fst h
          rw [finishRequire_fst] at h1
          dsimp only at h1
          subst h1
          refine ⟨fun k i hk =>
            normalizeIDCore_cache_pres env _ _ frm name _ _ hn k i hk,
            fun q r hq => ?_, ?_⟩
          · dsimp only
            have hne : ¬q = mp := fun e => by
              rw [e, hfresh] at hq
              cases hq
            rw [lookup_setA_ne _ _ _ _ hne, lookup_setA_ne _ _ _ _ hne]
            exact hq
          · dsimp only
            omega
        · rename_i hcore xa mp heqPath xb hfresh hnj hnn xc stB w heqExec
          have h1 := congrArg Prod.fst h
          rw [finishRequire_fst] at h1
          dsimp only at h1
          subst h1
          have hB := ih _ _ _ _ heqExec
          refine mono_trans ?_ hB
          refine ⟨fun k i hk =>
            normalizeIDCore_cache_pres env _ _ frm name _ _ hn k i hk,
            fun q r hq => ?_, ?_⟩
          · dsimp only
            have hne : ¬q = mp := fun e => by
              rw [e, hfresh] at hq
              cases hq
            rw [lookup_setA_ne _ _ _ _ hne]
            exact hq
          · dsimp only
            omega
    | reqMock frm name =>
      simp only [runCall] at h
      rcases hn : normalizeIDCore env st.virtualMocks st.normalizedIDCache frm
        (some name) with ⟨c1, rn⟩
      rw [hn] at h
      have monoN : Mono st {st with normalizedIDCache := c1} :=
        ⟨fun k i hk =>
          normalizeIDCore_cache_pres env _ _ frm (some name) _ _ hn k i hk,
         fun _ _ hq => hq, le_refl _⟩
      cases rn with
      | error e => simp at h
      | ok moduleID =>
        dsimp only at h
        repeat' split at h
        all_goals try (simp at h ; done)
        all_goals try (
          injection h with h1 h2
          subst h1
          exact monoN)
        · rename_i hcached xa f hf
          injection h with h1 h2
          subst h1
          refine mono_trans monoN (mono_trans (runFactory_mono _ f) ?_)
          exact ⟨fun _ _ hk => hk, fun _ _ hq => hq, le_refl _⟩
        · rename_i hcached xa hfac xb manual p heqPath hman xc stB w heqExec
          injection h with h1 h2
          subst h1
          have hB := ih _ _ _ _ heqExec
          refine mono_trans ?_ (mono_trans hB
            ⟨fun _ _ hk => hk, fun _ _ hq => hq, le_refl _⟩)
          exact ⟨fun k i hk =>
            normalizeIDCore_cache_pres env _ _ frm (some name) _ _ hn k i hk,
            fun _ _ hq => hq, Nat.le_succ _⟩
        · rename_i hcached xa hfac xb manual p heqPath hman xc stB w heqGen
          injection h with h1 h2
          subst h1
          have hB := ih _ _ _ _ heqGen
          exact mono_trans monoN (mono_trans hB
            ⟨fun _ _ hk => hk, fun _ _ hq => hq, le_refl _⟩)
    | genMock frm name =>
      simp only [runCall] at h
      repeat' split at h
      all_goals try (simp at h ; done)
      · rename_i xa mp heqRes hcache
        have h1 := congrArg Prod.fst h
        dsimp only at h1
        subst h1
        exact generateFromMetadataF_mono st _
      · rename_i xa mp heqRes hcache xb stB w heqIso xc md heqMeta
        have h1 := congrArg Prod.fst h
        dsimp only at h1
        subst h1
        have hB := ih _ _ _ _ heqIso
        refine mono_trans ?_ (generateFromMetadataF_mono _ _)
        exact ⟨fun k i hk => hB.1 k i hk, fun _ _ hq => hq, hB.2.2⟩

/-! ## Claim C4: cache idempotence and registry reset -/

theorem resetF_fields (s : RTState) :
    (resetModuleRegistryF s).normalizedIDCache = s.normalizedIDCache ∧
    (resetModuleRegistryF s).moduleRegistry = [] ∧
    (resetModuleRegistryF s).virtualMocks = s.virtualMocks ∧
    (resetModuleRegistryF s).nextAddr = s.nextAddr ∧
    (resetModuleRegistryF s).explicitShouldMock = s.explicitShouldMock ∧
    (resetModuleRegistryF s).isCurrentlyExecutingManualMock =
      s.isCurrentlyExecutingManualMock := by
  unfold resetModuleRegistryF
  cases s.envGlobal <;> simp

def envC4 : Env :=
  { env0 with
    resolver := { R0 with
      resolveModule := fun f n =>
        if f = "/t/x.js" ∧ n = "addon" then some "/t/a.node" else none }
    nativeRequire := fun _ => .obj 99 }

/-- C4 counterexample: a specifier that resolves successfully to a .node
native add-on is delegated to the host loader, whose module cache the
runtime does not control; after resetModuleRegistry the second requireModule
returns the same exports reference, not a distinct one. -/
theorem requireModule_cache_claim_false :
    (requireModule envC4 2 st0 "/t/x.js" (some "addon")).2 = .ok (.obj 99) ∧
    (requireModule envC4 2
        (resetModuleRegistryF
          (requireModule envC4 2 st0 "/t/x.js" (some "addon")).1)
        "/t/x.js" (some "addon")).2 = .ok (.obj 99) :=
  ⟨rfl, rfl⟩

theorem nKey_some (frm name : String) (hne : name ≠ "") :
    nKey frm (some name) = frm ++ pathDelimiter ++ name := by
  simp [nKey, optName, hne]

/-- On a registry hit with a memoised identifier, requireModule is a pure
read: it returns the cached record's exports and the state is unchanged. -/
theorem requireModule_hit_run (env : Env) (s : RTState) (frm name p : String)
    (g : Nat) (mid : String) (rec : ModuleRec)
    (hne : name ≠ "")
    (hgm : env.resolver.getModule name = none)
    (hmm : env.resolver.getMockModule name = none)
    (hcore : env.resolver.isCoreModule name = false)
    (hres : env.resolver.resolveModule frm name = some p)
    (hid : s.normalizedIDCache.lookup (frm ++ pathDelimiter ++ name) =
      some mid)
    (hregS : s.moduleRegistry.lookup p = some rec) :
    requireModule env (g + 1) s frm (some name) = (s, .ok rec.exports) := by
  have hn := normalizeIDCore_hit_str env s.virtualMocks s.normalizedIDCache
    frm name mid hne hid
  simp [requireModule, runCall, hn, optName, hne, hgm, hmm, hcore, hres, hregS]

/-- Inversion of a successful requireModule on a fresh executed module: the
run factors through execModule on the placeholder-extended state, the
returned value is the placeholder's exports object, and the final state is
the one execModule produced. -/
theorem requireModule_exec_inv (env : Env) (s : RTState)
    (frm name p : String) (g : Nat) (c1 : List (String × String))
    (mid : String) (st' : RTState) (v : Value)
    (hne : name ≠ "")
    (hgm : env.resolver.getModule name = none)
    (hmm : env.resolver.getMockModule name = none)
    (hcore : env.resolver.isCoreModule name = false)
    (hres : env.resolver.resolveModule frm name = some p)
    (hn : normalizeIDCore env s.virtualMocks s.normalizedIDCache frm
      (some name) = (c1, .ok mid))
    (hreg : s.moduleRegistry.lookup p = none)
    (hjson : ¬extname p = ".json") (hnode : ¬extname p = ".node")
    (hrun : requireModule env (g + 1) s frm (some name) = (st', .ok v)) :
    ∃ stB w, runCall env g (.execMod p s.nextAddr)
        {s with normalizedIDCache := c1,
                heap := (s.nextAddr, ([] : List (String × Value))) :: s.heap,
                nextAddr := s.nextAddr + 1,
                moduleRegistry :=
                  setA s.moduleRegistry p (ModuleRec.mk p (.obj s.nextAddr))} =
      (stB, .ok w) ∧ st' = stB ∧ v = .obj s.nextAddr := by
  simp only [requireModule, runCall, hn] at hrun
  simp [optName, hne, hgm, hmm, hcore, hres, hreg, hjson, hnode] at hrun
  rcases hex : runCall env g (.execMod p s.nextAddr)
      {s with normalizedIDCache := c1,
              heap := (s.nextAddr, ([] : List (String × Value))) :: s.heap,
              nextAddr := s.nextAddr + 1,
              moduleRegistry :=
                setA s.moduleRegistry p (ModuleRec.mk p (.obj s.nextAddr))}
    with ⟨stB, rB⟩
  rw [hex] at hrun
  cases rB with
  | error e => simp at hrun
  | ok w =>
    dsimp only at hrun
    have hmono := runCall_ok_mono env g _ _ _ _ hex
    have hpres : stB.moduleRegistry.lookup p =
        some (ModuleRec.mk p (.obj s.nextAddr)) :=
      hmono.2.1 p _ (lookup_setA_same _ _ _)
    unfold finishRequire at hrun
    rw [hpres] at hrun
    injection hrun with h1 h2
    injection h2 with h2
    exact ⟨stB, w, rfl, h1.symm, h2.symm⟩

/-- Inversion of a successful requireModule on a fresh .json data module:
the sandbox global must be live, the file is parsed into a fresh object
assigned as the record's exports, and that object is returned. -/
theorem requireModule_json_inv (env : Env) (s : RTState)
    (frm name p : String) (g : Nat) (c1 : List (String × String))
    (mid : String) (st' : RTState) (v : Value)
    (hne : name ≠ "")
    (hgm : env.resolver.getModule name = none)
    (hmm : env.resolver.getMockModule name = none)
    (hcore : env.resolver.isCoreModule name = false)
    (hres : env.resolver.resolveModule frm name = some p)
    (hn : normalizeIDCore env s.virtualMocks s.normalizedIDCache frm
      (some name) = (c1, .ok mid))
    (hreg : s.moduleRegistry.lookup p = none)
    (hjson : extname p = ".json")
    (hrun : requireModule env (g + 1) s frm (some name) = (st', .ok v)) :
    ∃ g0, s.envGlobal = some g0 ∧
      st' = {s with
               normalizedIDCache := c1,
               heap := (s.nextAddr + 1, env.jsonParse p) ::
                 (s.nextAddr, ([] : List (String × Value))) :: s.heap,
               nextAddr := s.nextAddr + 1 + 1,
               moduleRegistry :=
                 setA (setA s.moduleRegistry p
                     (ModuleRec.mk p (.obj s.nextAddr))) p
                   (ModuleRec.mk p (.obj (s.nextAddr + 1)))} ∧
      v = .obj (s.nextAddr + 1) := by
  simp only [requireModule, runCall, hn] at hrun
  simp [optName, hne, hgm, hmm, hcore, hres, hreg, hjson] at hrun
  cases hge : s.envGlobal with
  | none =>
    rw [hge] at hrun
    simp at hrun
  | some g0 =>
    rw [hge] at hrun
    dsimp only at hrun
    unfold finishRequire at hrun
    rw [lookup_setA_same] at hrun
    injection hrun with h1 h2
    injection h2 with h2
    exact ⟨g0, rfl, h1.symm, h2.symm⟩

/-- C4 amended: for a non-core specifier without haste-module or manual-mock
registration, resolving to a fresh path that is not a .node native add-on,
a successful requireModule caches the produced exports: any later call with
any fuel returns the same exports reference and leaves the state exactly
unchanged (the module body runs at most once); and if resetModuleRegistry
is invoked after the first call, a successful re-require returns a distinct
exports reference. -/
theorem requireModule_cache_amended (env : Env) (st : RTState)
    (frm name p : String) (f1 f3 : Nat) (st1 st2 : RTState) (v1 v2 : Value)
    (hne : name ≠ "")
    (hgm : env.resolver.getModule name = none)
    (hmm : env.resolver.getMockModule name = none)
    (hcore : env.resolver.isCoreModule name = false)
    (hvm : st.virtualMocks.lookup (getVirtualMockPath frm name) = none)
    (hres : env.resolver.resolveModule frm name = some p)
    (hreg : st.moduleRegistry.lookup p = none)
    (hnode : ¬extname p = ".node")
    (h1 : requireModule env f1 st frm (some name) = (st1, .ok v1)) :
    (∀ f2, requireModule env (f2 + 1) st1 frm (some name) = (st1, .ok v1)) ∧
    (requireModule env f3 (resetModuleRegistryF st1) frm (some name) =
        (st2, .ok v2) → v2 ≠ v1) := by
  cases f1 with
  | zero => simp [requireModule, runCall] at h1
  | succ g =>
    have hnok : ∃ c1 mid, normalizeIDCore env st.virtualMocks
        st.normalizedIDCache frm (some name) = (c1, .ok mid) := by
      cases hc : st.normalizedIDCache.lookup (frm ++ pathDelimiter ++ name)
        with
      | some mid0 =>
        exact ⟨st.normalizedIDCache, mid0,
          normalizeIDCore_hit_str env _ _ frm name mid0 hne hc⟩
      | none =>
        refine ⟨setA st.normalizedIDCache (frm ++ pathDelimiter ++ name)
          ("user" ++ pathDelimiter ++ p ++ pathDelimiter),
          "user" ++ pathDelimiter ++ p ++ pathDelimiter, ?_⟩
        unfold normalizeIDCore
        simp [optName, hne, hc, hcore, hgm, hmm, hvm, resolveModuleOptStr,
          hres, String.append_empty]
    obtain ⟨c1, mid, hn⟩ := hnok
    have hkey : c1.lookup (frm ++ pathDelimiter ++ name) = some mid := by
      have hx := normalizeIDCore_lookup_of_ok env st.virtualMocks
        st.normalizedIDCache c1 frm (some name) mid hn
      rwa [nKey_some frm name hne] at hx
    by_cases hjson : extname p = ".json"
    · obtain ⟨g0, hge, hst1, hv1⟩ := requireModule_json_inv env st frm name p
        g c1 mid st1 v1 hne hgm hmm hcore hres hn hreg hjson h1
      subst hv1
      constructor
      · intro f2
        refine requireModule_hit_run env st1 frm name p f2 mid
          (ModuleRec.mk p (.obj (st.nextAddr + 1))) hne hgm hmm hcore hres
          ?_ ?_
        · rw [hst1]
          exact hkey
        · rw [hst1]
          exact lookup_setA_same _ _ _
      · intro h3
        cases f3 with
        | zero => simp [requireModule, runCall] at h3
        | succ g3 =>
          have hitR : (resetModuleRegistryF st1).normalizedIDCache.lookup
              (frm ++ pathDelimiter ++ name) = some mid := by
            rw [(resetF_fields _).1, hst1]
            exact hkey
          have hn2 := normalizeIDCore_hit_str env
            (resetModuleRegistryF st1).virtualMocks _ frm name mid hne hitR
          have hregR : (resetModuleRegistryF st1).moduleRegistry.lookup p =
              none := by
            rw [(resetF_fields _).2.1]
            rfl
          obtain ⟨g0', hge', hst2, hv2⟩ := requireModule_json_inv env
            (resetModuleRegistryF st1) frm name p g3 _ mid st2 v2 hne hgm hmm
            hcore hres hn2 hregR hjson h3
          subst hv2
          intro hcontra
          injection hcontra with hcn
          rw [(resetF_fields _).2.2.2.1, hst1] at hcn
          dsimp only at hcn
          omega
    · obtain ⟨stB, w, hex, hst1, hv1⟩ := requireModule_exec_inv env st frm
        name p g c1 mid st1 v1 hne hgm hmm hcore hres hn hreg hjson hnode h1
      subst hst1
      subst hv1
      have hmono := runCall_ok_mono env g _ _ _ _ hex
      have hidB : st1.normalizedIDCache.lookup
          (frm ++ pathDelimiter ++ name) = some mid := hmono.1 _ _ hkey
      have hregB : st1.moduleRegistry.lookup p =
          some (ModuleRec.mk p (.obj st.nextAddr)) :=
        hmono.2.1 _ _ (lookup_setA_same _ _ _)
      have hna : st.nextAddr + 1 ≤ st1.nextAddr := hmono.2.2
      constructor
      · intro f2
        exact requireModule_hit_run env st1 frm name p f2 mid _ hne hgm hmm
          hcore hres hidB hregB
      · intro h3
        cases f3 with
        | zero => simp [requireModule, runCall] at h3
        | succ g3 =>
          have hitR : (resetModuleRegistryF st1).normalizedIDCache.lookup
              (frm ++ pathDelimiter ++ name) = some mid := by
            rw [(resetF_fields _).1]
            exact hidB
          have hn2 := normalizeIDCore_hit_str env
            (resetModuleRegistryF st1).virtualMocks _ frm name mid hne hitR
          have hregR : (resetModuleRegistryF st1).moduleRegistry.lookup p =
              none := by
            rw [(resetF_fields _).2.1]
            rfl
          obtain ⟨stC, w2, hex2, hst2, hv2⟩ := requireModule_exec_inv env _
            frm name p g3 _ mid st2 v2 hne hgm hmm hcore hres hn2 hregR hjson
            hnode h3
          subst hv2
          intro hcontra
          injection hcontra with hcn
          rw [(resetF_fields _).2.2.2.1] at hcn
          omega

/-- C4 amended applied at a concrete executed module: the second require
returns the reference cached by the first and leaves the state unchanged. -/
theorem requireModule_cache_amended_witness :
    requireModule envC5 1 (requireModule envC5 3 st0 "/t/x.js"
        (some "./m")).1 "/t/x.js" (some "./m") =
      ((requireModule envC5 3 st0 "/t/x.js" (some "./m")).1, .ok (.obj 0)) :=
  (requireModule_cache_amended envC5 st0 "/t/x.js" "./m" "/t/m.js" 3 1
    (requireModule envC5 3 st0 "/t/x.js" (some "./m")).1 st0 (.obj 0)
    .undefined (by decide) rfl rfl rfl rfl rfl rfl (by decide) (by rfl)).1 0
